import Mathlib

/-!
Verification of the statement-selection, command-building, subprocess
supervision and view bookkeeping logic of `genericsql.py`, a Sublime Text
build-system plugin that runs SQL through an external command-line client.

The buffer of the editor view is modelled as a `List Char` indexed by
character offset, the cursor as the offset `a` of the first selection
region, and the view settings / window state as plain Lean structures.
Effects on the host (spawning a process, showing the command palette,
terminating the child) are modelled as explicit event values.
-/

namespace GenericSql

/-- Buffer offsets `i` and `i + 1` both hold a newline.  This is how
`view.substr(sublime.Region(i, i + 2)) == "\n\n"` evaluates in the source:
`substr` clamps the region to the buffer, so near the end of the buffer the
substring is shorter than two characters and never equals the pattern, which
is exactly what `List.get?` returning `none` gives here. -/
def isBlankAt (buf : List Char) (i : Nat) : Bool :=
  (buf.get? i == some '\n') && (buf.get? (i + 1) == some '\n')

/-- Loop body of `find_preceding_newline`: `i` runs downward and the loop
guard is `while i > 0`, so offset 0 itself is never tested.  On a hit at `i`
the source returns `i + 2`; when the loop runs out it returns 0. -/
def fpnGo (buf : List Char) : Nat → Nat
  | 0 => 0
  | i + 1 => if isBlankAt buf (i + 1) then i + 3 else fpnGo buf i

/-- `find_preceding_newline`: the downward scan starts at `region.a - 2`.
In Python a negative start value makes the guard fail immediately and the
function falls through to `return 0`; truncating `Nat` subtraction gives the
same behaviour. -/
def find_preceding_newline (buf : List Char) (a : Nat) : Nat :=
  fpnGo buf (a - 2)

/-- Loop body of `find_next_newline`: `i` runs upward from `region.a - 1`
while `i < view.size()`, returning the offset of the first two-newline hit,
or the buffer size when the loop runs out.  The loop is driven by the exact
number of remaining iterations `view.size() - i`, so the recursion is
structural. -/
def fnnGo (buf : List Char) : Nat → Nat → Nat
  | 0, _ => buf.length
  | fuel + 1, i => if isBlankAt buf i then i else fnnGo buf fuel (i + 1)

/-- `find_next_newline`: the upward scan starts at `region.a - 1`.  In Python
`a = 0` starts the scan at `i = -1`, where the clamped substring has at most
one character and can never match, so starting at 0 is equivalent. -/
def find_next_newline (buf : List Char) (a : Nat) : Nat :=
  fnnGo buf (buf.length - (a - 1)) (a - 1)

/-- `select_current_statement`: replaces the selection with the single region
from `find_preceding_newline` to `find_next_newline`, both computed from the
`a` end of the first selection region. -/
def select_current_statement (buf : List Char) (a : Nat) : Nat × Nat :=
  (find_preceding_newline buf a, find_next_newline buf a)

/-- Statement start as the claim words it: the position immediately after the
nearest occurrence of two consecutive newlines lying wholly before the cursor
(0 if there is none).  The candidate offsets `0 .. a - 2` are listed in
increasing order, so the nearest one is the last kept by the filter. -/
def claimedStart (buf : List Char) (a : Nat) : Nat :=
  match ((List.range' 0 (a - 1)).filter (fun i => isBlankAt buf i)).getLast? with
  | some i => i + 2
  | none => 0

/-- Statement end as the claim words it, read so that it matches the forward
scan of the source: the offset of the nearest two-newline occurrence ending
after the cursor (the first candidate offset is `a - 1`, the occurrence that
straddles the cursor), or the buffer size if there is none. -/
def specEnd (buf : List Char) (a : Nat) : Nat :=
  match ((List.range' (a - 1) (buf.length - (a - 1))).filter
      (fun i => isBlankAt buf i)).head? with
  | some i => i
  | none => buf.length

/-- The span the claim asserts `select_current_statement` selects. -/
def claimedSpan (buf : List Char) (a : Nat) : Nat × Nat :=
  (claimedStart buf a, specEnd buf a)

/-- Statement start as amended: identical to `claimedStart` except that
offset 0 is excluded from the candidates, mirroring the `while i > 0` guard
of the backward scan, which never tests a blank-line pair sitting at the very
start of the buffer. -/
def amendedStart (buf : List Char) (a : Nat) : Nat :=
  match ((List.range' 1 (a - 2)).filter (fun i => isBlankAt buf i)).getLast? with
  | some i => i + 2
  | none => 0

/-- The span the code actually selects, in nearest-boundary form. -/
def amendedSpan (buf : List Char) (a : Nat) : Nat × Nat :=
  (amendedStart buf a, specEnd buf a)

lemma fpnGo_eq_getLast (buf : List Char) :
    ∀ n : Nat, fpnGo buf n =
      match ((List.range' 1 n).filter (fun i => isBlankAt buf i)).getLast? with
      | some i => i + 2
      | none => 0 := by
  intro n
  induction n with
  | zero => simp [fpnGo]
  | succ n ih =>
    rw [fpnGo, List.range'_1_concat, List.filter_append, ih]
    by_cases h : isBlankAt buf (n + 1)
    · simp [h, Nat.add_comm 1 n, List.getLast?_concat]
    · simp [h, Nat.add_comm 1 n]

lemma fnnGo_eq_head (buf : List Char) :
    ∀ (fuel i : Nat), buf.length - i = fuel → fnnGo buf fuel i =
      match ((List.range' i fuel).filter (fun j => isBlankAt buf j)).head? with
      | some j => j
      | none => buf.length := by
  intro fuel
  induction fuel with
  | zero => intro i _; simp [fnnGo]
  | succ fuel ih =>
    intro i hlen
    rw [fnnGo, List.range'_succ]
    by_cases h : isBlankAt buf i
    · simp [h]
    · simp only [h, if_false, List.filter_cons, Bool.false_eq_true, ite_false]
      exact ih (i + 1) (by omega)

/-- C1 (counterexample): with the buffer `"\n\nabc"` and the cursor at
offset 4, the blank-line pair at offset 0 lies wholly before the cursor, so
the claimed span starts at 2, but the code selects the span starting at 0:
the backward scan's `while i > 0` guard never examines offset 0. -/
theorem select_current_statement_ce :
    select_current_statement ['\n', '\n', 'a', 'b', 'c'] 4 ≠
      claimedSpan ['\n', '\n', 'a', 'b', 'c'] 4 := by
  decide

/-- C1 (amended): `select_current_statement` selects exactly the span between
the two nearest blank-line pairs around the cursor, clamped to the buffer,
except that the backward scan never tests offset 0: the start is the position
immediately after the nearest `"\n\n"` at offset at least 1 ending at or
before the cursor (0 if there is none, or if the only such pair starts the
buffer), and the end is the offset of the nearest `"\n\n"` ending after the
cursor (the buffer size if there is none). -/
theorem select_current_statement_nearest_blank (buf : List Char) (a : Nat) :
    select_current_statement buf a = amendedSpan buf a := by
  unfold select_current_statement amendedSpan find_preceding_newline
    find_next_newline amendedStart specEnd
  rw [fpnGo_eq_getLast buf (a - 2), fnnGo_eq_head buf (buf.length - (a - 1)) (a - 1) rfl]

/-- Body of `run_file` that picks the extra argument appended for the
dialect: a chain of independent `if` statements, each overwriting `append`.
The default (any unrecognised dialect) is stdin redirection `"<" + file`;
mysql gets the single string `"-e source " + file`; postgres the single
string `"-f" + file`; oracle the bare file name. -/
def dialect_file_arg (dialect file_name : String) : String :=
  let a0 := "<" ++ file_name
  let a1 := if dialect == "mysql" then "-e source " ++ file_name else a0
  let a2 := if dialect == "postgres" then "-f" ++ file_name else a1
  let a3 := if dialect == "oracle" then file_name else a2
  a3

/-- The argument vector `run_file` hands to `run_command`: the configured
vector extended by `cmd += append` with the single dialect argument. -/
def run_file_args (cmd : List String) (dialect file_name : String) : List String :=
  cmd ++ [dialect_file_arg dialect file_name]

/-- The dialect argument as the claim words it: for oracle the file is passed
sqlplus-style as a single `@file` argument.  The other cases are read
charitably so that they match the source. -/
def claimed_file_arg (dialect file_name : String) : String :=
  if dialect == "mysql" then "-e source " ++ file_name
  else if dialect == "postgres" then "-f" ++ file_name
  else if dialect == "oracle" then "@" ++ file_name
  else "<" ++ file_name

/-- C2 (counterexample): for the oracle dialect `run_file` appends the bare
file name, not the `@file` form the claim states; the `@` has to come from
the user-configured vector itself (the sample build configuration ends the
oracle vector with a separate `"@"` element). -/
theorem run_file_args_oracle_ce :
    run_file_args ["sqlplus", "-s", "conn"] "oracle" "q.sql" ≠
      ["sqlplus", "-s", "conn"] ++ [claimed_file_arg "oracle" "q.sql"] := by
  decide

/-- C2 (amended): `run_file` appends exactly one dialect-specific argument to
the configured vector, leaving the rest untouched: the bare file name for
oracle (the sqlplus `@` must already sit in the configured vector), the
single argument `"-f" ++ file` for postgres, the single argument
`"-e source " ++ file` for mysql, and `"<" ++ file` for any other dialect. -/
theorem run_file_args_spec (cmd : List String) (file : String) :
    run_file_args cmd "oracle" file = cmd ++ [file]
    ∧ run_file_args cmd "postgres" file = cmd ++ ["-f" ++ file]
    ∧ run_file_args cmd "mysql" file = cmd ++ ["-e source " ++ file]
    ∧ ∀ d : String, d ≠ "oracle" → d ≠ "postgres" → d ≠ "mysql" →
        run_file_args cmd d file = cmd ++ ["<" ++ file] := by
  refine ⟨rfl, rfl, rfl, ?_⟩
  intro d h1 h2 h3
  simp [run_file_args, dialect_file_arg, h1, h2, h3]

/-- C2 (witness): an unrecognised dialect falls back to stdin redirection. -/
theorem run_file_args_spec_witness :
    run_file_args ["sqlite3"] "sqlite" "f.sql" = ["sqlite3"] ++ ["<" ++ "f.sql"] :=
  (run_file_args_spec ["sqlite3"] "f.sql").2.2.2 "sqlite"
    (by decide) (by decide) (by decide)

/-- The trailer `"\n[Return code: %s]\n" % popen.returncode` appended after
the process has terminated. -/
def retTrailer (rc : Int) : String :=
  "\n[Return code: " ++ toString rc ++ "]\n"

/-- Texts appended by one iteration of the polling loop while the child is
still running: `popen.communicate(timeout=0.20)` waits for the process to
exit and raises `TimeoutExpired` if it is still alive, so the append in the
`try` never runs while the process lives, and the `readline` fallback in the
except-branch is commented out in the source.  The iteration appends
nothing. -/
def runningIterAppends : List String := []

/-- Appends accumulated over the whole polling phase, one entry of
`runningIterAppends` per `while popen.returncode is None` iteration. -/
def pollPhase : Nat → List String
  | 0 => []
  | n + 1 => runningIterAppends ++ pollPhase n

/-- Hint appended by `shell_command` when `OSError.errno == 8`. -/
def shebangHint : String :=
  "\n(if you are executing a script, ensure the first line has a she-bang #!)\n"

/-- Rendering of a caught `OSError` as text, mirroring the `errno` case split
of `shell_command`; `cmdStr` stands for Python's `str(cmd)`. -/
def oserrorAppends (errno : Int) (msg cmdStr : String) : List String :=
  if errno = 2 then ["Command not found: " ++ cmdStr]
  else if errno = 8 then [msg, shebangHint]
  else [msg]

/-- Outcome of spawning and supervising the child process: a normal run
(`polls` loop iterations while alive, the captured output, the exit status),
an `OSError` raised by `Popen`, or a `CalledProcessError`. -/
inductive SpawnOutcome where
  | ok : Nat → String → Int → SpawnOutcome
  | osError : Int → String → SpawnOutcome
  | calledProcessError : String → SpawnOutcome

/-- Result of one `shell_command` invocation: the texts handed to
`append_text` in order, the value of `self.shell_process` afterwards, and
whether an exception escaped to the caller. -/
structure ShellResult where
  appends : List String
  shellProcess : Option Unit
  raised : Bool

/-- `shell_command`: on a normal run the polling loop contributes
`pollPhase`, the post-loop `communicate()` yields the remaining output, the
return-code trailer follows, and `shell_process` is reset to `None`.  When
`Popen` raises `OSError` the assignment to `shell_process` never happened, so
it keeps its prior value, and the error is rendered by errno; a
`CalledProcessError` is rendered as its text.  No handled exception
propagates. -/
def shell_command (cmdStr : String) (prior : Option Unit) :
    SpawnOutcome → ShellResult
  | SpawnOutcome.ok polls out rc =>
      { appends := pollPhase polls ++ [out, retTrailer rc]
        shellProcess := none
        raised := false }
  | SpawnOutcome.osError errno msg =>
      { appends := oserrorAppends errno msg cmdStr
        shellProcess := prior
        raised := false }
  | SpawnOutcome.calledProcessError msg =>
      { appends := [msg], shellProcess := prior, raised := false }

/-- The texts that reach the output view while the child process is still
running, i.e. the polling-loop segment of the appends. -/
def during_execution_appends : SpawnOutcome → List String
  | SpawnOutcome.ok polls _ _ => pollPhase polls
  | _ => []

lemma pollPhase_eq_nil : ∀ n : Nat, pollPhase n = [] := by
  intro n
  induction n with
  | zero => rfl
  | succ n ih => simp [pollPhase, runningIterAppends, ih]

/-- C3 (counterexample): a process that runs for three polling iterations and
produces the output `"x"` has nothing forwarded to the view during those
iterations; its whole output arrives only after it has exited, immediately
followed by the return-code trailer. -/
theorem shell_not_incremental_ce :
    during_execution_appends (SpawnOutcome.ok 3 "x" 0) = []
    ∧ (shell_command "c" (some ()) (SpawnOutcome.ok 3 "x" 0)).appends =
        ["x", retTrailer 0] :=
  ⟨rfl, rfl⟩

/-- C3 (amended): the background task does poll the child in a loop while it
runs, but forwards nothing to the view during that time —
`communicate(timeout=0.20)` only returns once the process has exited and the
`readline` fallback is commented out — so the entire captured output is
appended only after the process exits, followed by the return-code
trailer. -/
theorem shell_output_only_after_exit (cmdStr : String) (prior : Option Unit)
    (polls : Nat) (out : String) (rc : Int) :
    during_execution_appends (SpawnOutcome.ok polls out rc) = []
    ∧ (shell_command cmdStr prior (SpawnOutcome.ok polls out rc)).appends =
        [out, retTrailer rc] := by
  constructor
  · exact pollPhase_eq_nil polls
  · simp [shell_command, pollPhase_eq_nil polls]

/-- C3 (amended, witness): concrete instance of the amended statement. -/
theorem shell_output_only_after_exit_witness :
    during_execution_appends (SpawnOutcome.ok 2 "rows" 1) = []
    ∧ (shell_command "psql" none (SpawnOutcome.ok 2 "rows" 1)).appends =
        ["rows", retTrailer 1] :=
  shell_output_only_after_exit "psql" none 2 "rows" 1

/-- C4: a caught `OSError` is rendered as appended text only —
`"Command not found: <cmd>"` for errno 2, the exception text plus the
she-bang hint for errno 8, the exception text alone for any other errno —
and no exception propagates to the caller. -/
theorem shell_command_oserror_rendering (msg cmdStr : String)
    (prior : Option Unit) :
    (shell_command cmdStr prior (SpawnOutcome.osError 2 msg)).appends =
        ["Command not found: " ++ cmdStr]
    ∧ (shell_command cmdStr prior (SpawnOutcome.osError 8 msg)).appends =
        [msg, shebangHint]
    ∧ (∀ errno : Int, errno ≠ 2 → errno ≠ 8 →
        (shell_command cmdStr prior (SpawnOutcome.osError errno msg)).appends
          = [msg])
    ∧ (∀ errno : Int,
        (shell_command cmdStr prior (SpawnOutcome.osError errno msg)).raised
          = false) := by
  refine ⟨rfl, rfl, ?_, fun _ => rfl⟩
  intro errno h2 h8
  simp [shell_command, oserrorAppends, h2, h8]

/-- C4 (witness): an errno outside 2 and 8 renders as the bare text. -/
theorem shell_command_oserror_rendering_witness :
    (shell_command "mycmd" none (SpawnOutcome.osError 13 "denied")).appends =
      ["denied"] :=
  (shell_command_oserror_rendering "denied" "mycmd" none).2.2.1 13
    (by decide) (by decide)

/-- `kill_shell`: calls `terminate()` on `self.shell_process` exactly when
the attribute holds a live process; with the attribute absent or `None`
nothing happens (the suppressed `log` calls aside).  The result lists the
terminate calls issued. -/
def kill_shell_effects : Option Unit → List Unit
  | some _ => [()]
  | none => []

/-- C8: whenever the spawned process terminates without an OS-level
exception, the appends end with the remaining captured output followed by
exactly the return-code trailer, `shell_process` is reset to `None`, and a
subsequent kill request therefore finds no process to terminate. -/
theorem shell_command_exit_trailer (cmdStr : String) (prior : Option Unit)
    (polls : Nat) (out : String) (rc : Int) :
    (∃ pre,
      (shell_command cmdStr prior (SpawnOutcome.ok polls out rc)).appends =
        pre ++ [out, retTrailer rc])
    ∧ (shell_command cmdStr prior (SpawnOutcome.ok polls out rc)).shellProcess
        = none
    ∧ kill_shell_effects
        (shell_command cmdStr prior (SpawnOutcome.ok polls out rc)).shellProcess
        = [] :=
  ⟨⟨pollPhase polls, rfl⟩, rfl, rfl⟩

/-- First step of the newline normalisation in `append_text`:
`line.replace('\r\n', '\n')`, scanning left to right over non-overlapping
occurrences. -/
def replaceCrLf : List Char → List Char
  | [] => []
  | [c] => [c]
  | c :: d :: rest =>
      if c = '\r' ∧ d = '\n' then '\n' :: replaceCrLf rest
      else c :: replaceCrLf (d :: rest)

/-- Second step of the newline normalisation in `append_text`:
`.replace('\r', '\n')`. -/
def replaceCr : List Char → List Char
  | [] => []
  | c :: rest =>
      if c = '\r' then '\n' :: replaceCr rest else c :: replaceCr rest

/-- The full normalisation `line.replace('\r\n', '\n').replace('\r', '\n')`
applied by `append_text` to every string before it reaches the view. -/
def normalize (l : List Char) : List Char :=
  replaceCr (replaceCrLf l)

/-- The view content after a sequence of `append_text` calls: each appended
string is normalised and concatenated at the end of the view. -/
def apply_appends (content : List Char) (lines : List String) : List Char :=
  lines.foldl (fun c l => c ++ normalize l.toList) content

lemma replaceCr_no_cr : ∀ l : List Char, '\r' ∉ replaceCr l := by
  intro l
  induction l with
  | nil => simp [replaceCr]
  | cons c rest ih =>
    by_cases h : c = '\r'
    · rw [replaceCr, if_pos h]
      intro hmem
      rcases List.mem_cons.mp hmem with h1 | h1
      · exact absurd h1 (by decide)
      · exact ih h1
    · rw [replaceCr, if_neg h]
      intro hmem
      rcases List.mem_cons.mp hmem with h1 | h1
      · exact h h1.symm
      · exact ih h1

lemma normalize_no_cr (l : List Char) : '\r' ∉ normalize l :=
  replaceCr_no_cr (replaceCrLf l)

/-- C9: every string reaching the output view passes through `append_text`,
which replaces every `"\r\n"` and then every remaining `'\r'` with `'\n'`;
consequently a view whose content holds no carriage return still holds none
after any sequence of appends, whatever newline convention the subprocess
used. -/
theorem append_text_no_carriage_return (content : List Char)
    (lines : List String) (h : '\r' ∉ content) :
    '\r' ∉ apply_appends content lines := by
  induction lines generalizing content with
  | nil => exact h
  | cons l rest ih =>
    apply ih
    intro hmem
    rcases List.mem_append.mp hmem with h1 | h1
    · exact h h1
    · exact normalize_no_cr l.toList h1

/-- C9 (witness): appending CRLF- and CR-flavoured output to an empty view
leaves no carriage return. -/
theorem append_text_no_carriage_return_witness :
    '\r' ∉ apply_appends [] ["a\r\nb", "c\rd"] :=
  append_text_no_carriage_return [] ["a\r\nb", "c\rd"] (by decide)

/-- Python truthiness of an optional string: `if x:` is false for both
`None` and the empty string. -/
def pyTruthy : Option String → Bool
  | some s => !(s == "")
  | none => false

/-- A view of the host window as far as `run_command` manipulates it: its
identity, name, text content, scratch flag and settings map (a Python `set`
may store `None`, hence `Option String` values). -/
structure OutView where
  vid : Nat
  name : String
  content : List Char
  scratch : Bool
  settings : String → Option String

/-- The host window: its views in order and the identity the next
`new_file()` call hands out. -/
structure Window where
  views : List OutView
  nextId : Nat

/-- `find_output_view`: the first view in the window whose name matches. -/
def find_output_view (w : Window) (n : String) : Option OutView :=
  w.views.find? (fun v => v.name == n)

/-- One `view.settings().set(key, value)` update. -/
def setSettingO (f : String → Option String) (k : String) (v : Option String) :
    String → Option String :=
  fun q => if q = k then v else f q

/-- The output view name `run_command` builds: `"SQL Output"`, extended with
`": " + file_name` when a (truthy) file name was given. -/
def outputViewName (fn : Option String) : String :=
  if pyTruthy fn then "SQL Output: " ++ fn.getD "" else "SQL Output"

/-- `run_command`: builds the view name `"SQL Output[: filename]"`, reuses
the first existing view of that name or calls `new_file()`, clears it, marks
it scratch, renames it, stores `result_base_dir` (the working directory is
`None` from the only caller, and its `""`-defaulting branch is dead code),
appends the `"Filename: …"` header through `append_text` when a file name was
given, stores the two result regexes when given, and designates the view as
the output view the scheduled `shell_command` appends to.  The
`set_syntax_file`, focus and scroll calls touch only host UI state and are
not modelled. -/
def run_command (w : Window) (fn wd fr lr : Option String) :
    Window × OutView :=
  let view_name := outputViewName fn
  let found := find_output_view w view_name
  let base :=
    match found with
    | some v => v
    | none =>
        { vid := w.nextId, name := "", content := [], scratch := false
          settings := fun _ => none }
  let v1 := { base with content := [], scratch := true, name := view_name }
  let v2 := { v1 with settings := setSettingO v1.settings "result_base_dir" wd }
  let v3 :=
    if pyTruthy fn then
      { v2 with content :=
          v2.content ++ normalize ("Filename: " ++ fn.getD "" ++ "\n").toList }
    else v2
  let v4 :=
    if pyTruthy fr then
      { v3 with settings := setSettingO v3.settings "result_file_regex" fr }
    else v3
  let v5 :=
    if pyTruthy lr then
      { v4 with settings := setSettingO v4.settings "result_line_regex" lr }
    else v4
  let w2 :=
    match found with
    | some _ =>
        { w with views := w.views.map (fun u => if u.vid == v5.vid then v5 else u) }
    | none => { views := w.views ++ [v5], nextId := w.nextId + 1 }
  (w2, v5)

/-- The file regex `run_file` always passes so the host can hyperlink error
lines. -/
def fileRegexDefault : String := "^Filename: (.+)$"

/-- The line regex `run_file` always passes. -/
def lineRegexDefault : String :=
  "^\\(.+?/([0-9]+):([0-9]+)\\) [0-9]+:[0-9]+ (.+)$"

/-- The `run_command` call `run_file` makes: display file name from the
source view, no working directory, and the two default regexes. -/
def run_file_output (w : Window) (display : Option String) :
    Window × OutView :=
  run_command w display none (some fileRegexDefault) (some lineRegexDefault)

/-- C5: every executing invocation routes its output to a scratch view named
`"SQL Output"` (no file name) or `"SQL Output: <filename>"`; the first
existing view of that exact name is cleared and reused, otherwise a fresh
file view is created; the view is marked scratch and its
`result_file_regex` / `result_line_regex` settings hold the hyperlinking
regexes `run_file` passes.  After clearing, the content is just the
`"Filename: …"` header (or empty without a file name). -/
theorem run_command_output_view (w : Window) (display : Option String)
    (hwf : ∀ u ∈ w.views, u.vid < w.nextId) :
    (run_file_output w display).2.name = outputViewName display
    ∧ (run_file_output w display).2.scratch = true
    ∧ (run_file_output w display).2.settings "result_file_regex" =
        some fileRegexDefault
    ∧ (run_file_output w display).2.settings "result_line_regex" =
        some lineRegexDefault
    ∧ (run_file_output w display).2.content =
        (if pyTruthy display then
          normalize ("Filename: " ++ display.getD "" ++ "\n").toList
        else [])
    ∧ (match find_output_view w (outputViewName display) with
       | some old => (run_file_output w display).2.vid = old.vid
       | none => ∀ u ∈ w.views, u.vid ≠ (run_file_output w display).2.vid) := by
  have hfr : pyTruthy (some fileRegexDefault) = true := by decide
  have hlr : pyTruthy (some lineRegexDefault) = true := by decide
  cases hf : find_output_view w (outputViewName display) with
  | some old =>
    by_cases hd : pyTruthy display
    all_goals
      simp [run_file_output, run_command, hf, hfr, hlr, hd, setSettingO]
  | none =>
    by_cases hd : pyTruthy display
    all_goals
      simp [run_file_output, run_command, hf, hfr, hlr, hd, setSettingO]
    all_goals
      intro u hu
      exact Nat.ne_of_lt (hwf u hu)

/-- C5 (witness): on an empty window with a file name, a fresh scratch view
named after the file is created with the regex settings populated. -/
theorem run_command_output_view_witness :
    (run_file_output ⟨[], 0⟩ (some "t.sql")).2.name = outputViewName (some "t.sql")
    ∧ (run_file_output ⟨[], 0⟩ (some "t.sql")).2.scratch = true
    ∧ (run_file_output ⟨[], 0⟩ (some "t.sql")).2.settings "result_file_regex" =
        some fileRegexDefault
    ∧ (run_file_output ⟨[], 0⟩ (some "t.sql")).2.settings "result_line_regex" =
        some lineRegexDefault
    ∧ (run_file_output ⟨[], 0⟩ (some "t.sql")).2.content =
        (if pyTruthy (some "t.sql") then
          normalize ("Filename: " ++ (some "t.sql").getD "" ++ "\n").toList
        else [])
    ∧ (match find_output_view ⟨[], 0⟩ (outputViewName (some "t.sql")) with
       | some old => (run_file_output ⟨[], 0⟩ (some "t.sql")).2.vid = old.vid
       | none => ∀ u ∈ (Window.mk [] 0).views,
           u.vid ≠ (run_file_output ⟨[], 0⟩ (some "t.sql")).2.vid) :=
  run_command_output_view ⟨[], 0⟩ (some "t.sql")
    (fun u hu => absurd hu (List.not_mem_nil u))

/-- `view.substr(region)` for a selection region `(a, b)`: the text between
the two endpoints, whichever order they come in (a `sublime.Region` may be
reversed). -/
def substrR (content : List Char) (r : Nat × Nat) : List Char :=
  (content.drop (min r.1 r.2)).take (max r.1 r.2 - min r.1 r.2)

/-- Events `run_selection` performs on the temp file handle and the host:
`os_write` calls (each writes the UTF-8 encoding of the region text; encoding
commutes with concatenation, so the content is tracked at character level),
`os.close`, and the scheduling of the external command by
`run_file`/`run_command`. -/
inductive FileEvent where
  | write : List Char → FileEvent
  | closeHandle : FileEvent
  | schedule : List String → FileEvent
deriving DecidableEq

/-- `write_selection_to_handle`: one `os_write` per selection region, in
selection order. -/
def write_selection_events (content : List Char) (sel : List (Nat × Nat)) :
    List FileEvent :=
  sel.map (fun r => FileEvent.write (substrR content r))

/-- `run_selection`: `tempfile.mkstemp(suffix=".sql")` yields a fresh name
ending in `".sql"` (modelled as `tempBase ++ ".sql"`), the selection is
written to the handle, the handle is closed, and only then is the command
scheduled against the temp file name via `run_file`. -/
def run_selection_events (view_content : List Char) (sel : List (Nat × Nat))
    (cmd : List String) (dialect : String) (tempBase : String) :
    String × List FileEvent :=
  let temp := tempBase ++ ".sql"
  (temp,
    write_selection_events view_content sel ++
      [FileEvent.closeHandle,
       FileEvent.schedule (run_file_args cmd dialect temp)])

/-- The bytes (as characters) written to a file handle by a list of events,
in order. -/
def written_content : List FileEvent → List Char
  | [] => []
  | FileEvent.write s :: rest => s ++ written_content rest
  | _ :: rest => written_content rest

lemma written_content_writes (content : List Char) :
    ∀ (sel : List (Nat × Nat)) (rest : List FileEvent),
      written_content (write_selection_events content sel ++ rest) =
        (sel.map (substrR content)).flatten ++ written_content rest := by
  intro sel
  induction sel with
  | nil => intro rest; simp [write_selection_events, written_content]
  | cons r sel ih =>
    intro rest
    have hcons : write_selection_events content (r :: sel) ++ rest =
        FileEvent.write (substrR content r) ::
          (write_selection_events content sel ++ rest) := by
      simp [write_selection_events]
    rw [hcons]
    show substrR content r ++
        written_content (write_selection_events content sel ++ rest) = _
    rw [ih rest]
    simp [List.append_assoc]

/-- C6: `run_selection` uses a temp file whose name carries the `".sql"`
suffix, writes to it exactly the concatenation, in selection order, of the
selected region texts, closes the handle strictly before the command is
scheduled, and schedules the configured command against the temp file name
(via the dialect file argument) rather than the original file. -/
theorem run_selection_temp_file (view_content : List Char)
    (sel : List (Nat × Nat)) (cmd : List String) (dialect tempBase : String) :
    (run_selection_events view_content sel cmd dialect tempBase).1 =
        tempBase ++ ".sql"
    ∧ written_content (run_selection_events view_content sel cmd dialect tempBase).2
        = (sel.map (substrR view_content)).flatten
    ∧ (∃ i j, i < j
        ∧ (run_selection_events view_content sel cmd dialect tempBase).2.get? i
            = some FileEvent.closeHandle
        ∧ (run_selection_events view_content sel cmd dialect tempBase).2.get? j
            = some (FileEvent.schedule
                (cmd ++ [dialect_file_arg dialect (tempBase ++ ".sql")]))) := by
  refine ⟨rfl, ?_, ?_⟩
  · rw [show (run_selection_events view_content sel cmd dialect tempBase).2 =
        write_selection_events view_content sel ++
          [FileEvent.closeHandle,
           FileEvent.schedule (run_file_args cmd dialect (tempBase ++ ".sql"))]
      from rfl]
    rw [written_content_writes]
    simp [written_content]
  · refine ⟨sel.length, sel.length + 1, Nat.lt_succ_self _, ?_, ?_⟩
    · rw [show (run_selection_events view_content sel cmd dialect tempBase).2 =
          write_selection_events view_content sel ++
            [FileEvent.closeHandle,
             FileEvent.schedule (run_file_args cmd dialect (tempBase ++ ".sql"))]
        from rfl]
      rw [List.get?_append_right (by simp [write_selection_events])]
      simp [write_selection_events]
    · rw [show (run_selection_events view_content sel cmd dialect tempBase).2 =
          write_selection_events view_content sel ++
            [FileEvent.closeHandle,
             FileEvent.schedule (run_file_args cmd dialect (tempBase ++ ".sql"))]
        from rfl]
      rw [List.get?_append_right (by simp [write_selection_events])]
      simp [write_selection_events, run_file_args]

/-- The keyword arguments `sql_exec` can receive (absent string arguments
default to `""`, an absent cmd to the empty vector, and `kwargs.get("kill",
False)` to false; `pfx` stands for the `prefix` argument used in the overlay
text). -/
structure Kwargs where
  kill : Bool
  action : String
  sqlscope : String
  dialect : String
  cmd : List String
  pfx : String

/-- The view settings `run` reads and writes: `"cmd"` (where the empty
vector doubles for the unset/empty-string default, which is falsy exactly
like an absent key), `"dialect"`, and `"sqlscope"` (erasable, read once with
default `"file"` into a dead local and once without default). -/
structure VSettings where
  cmd : List String
  dialect : String
  sqlscope : Option String
deriving DecidableEq

/-- The active view as `run` sees it: settings, selection regions, buffer
content and file name. -/
structure ViewState where
  settings : VSettings
  sel : List (Nat × Nat)
  content : List Char
  file_name : Option String
deriving DecidableEq

/-- Host-visible effects of one `run` invocation: terminating the stored
child, showing the command-palette overlay, executing the whole file, or
executing a temp file holding the (possibly explain-wrapped) selection. -/
inductive RunEffect where
  | terminate : RunEffect
  | showOverlay : String → RunEffect
  | execFile : List String → String → Option String → RunEffect
  | execSelection : List Char → List String → String → String → RunEffect
  | execExplain : List Char → List String → String → String → RunEffect
deriving DecidableEq

/-- Concatenation, in selection order, of the selected region texts — what
`write_selection_to_handle` emits. -/
def selection_content (content : List Char) (sel : List (Nat × Nat)) :
    List Char :=
  (sel.map (substrR content)).flatten

/-- The temp-file content `explain_plan` writes: the oracle dialect wraps
the selection in `explain plan for … dbms_xplan.display`, every other
dialect prefixes `explain `. -/
def explain_content (content : List Char) (sel : List (Nat × Nat))
    (dialect : String) : List Char :=
  if dialect == "oracle" then
    "explain plan for ".toList ++ selection_content content sel ++
      "\nset heading off".toList ++
      "\nselect * from table(dbms_xplan.display);".toList
  else
    "explain ".toList ++ selection_content content sel

/-- `len(sel) == 1 and sel[0].a == sel[0].b`. -/
def empty_selection (sel : List (Nat × Nat)) : Bool :=
  (sel.length == 1) &&
    (match sel.head? with
     | some r => r.1 == r.2
     | none => false)

/-- The command vector and dialect an invocation resolves to: the argument
vector when non-empty, otherwise whatever the view settings hold after a
`reset` action has possibly erased the stored vector. -/
def resolved_cmd (kw : Kwargs) (s : VSettings) : List String × String :=
  let s1cmd := if kw.action == "reset" then [] else s.cmd
  if kw.cmd.isEmpty then (s1cmd, s.dialect) else (kw.cmd, kw.dialect)

/-- `SqlExecCommand.run`.  In source order: with `kill` it only terminates
the stored process (the suppressed `log`/`reset_log` bookkeeping is the dead
logging subsystem and is not modelled) and returns; a `reset` action erases
the stored `cmd`; a passed `sqlscope` is saved on the view (the local the
source reads back at this point is overwritten before use and omitted); the
command resolves from the arguments or the view settings, and when it stays
empty the command palette overlay is shown and `run` returns with the saved
scope still on the view; otherwise the scope is read back and erased, the
resolved `cmd`/`dialect` are saved, an empty selection under statement scope
is replaced by the current statement, and the whole file, the selection, or
the explain-wrapped selection is executed. -/
def run (kw : Kwargs) (view : ViewState) (proc : Option Unit)
    (tempBase : String) : ViewState × List RunEffect :=
  if kw.kill then
    (view,
      match proc with
      | some _ => [RunEffect.terminate]
      | none => [])
  else
    let s0 := view.settings
    let s1 := if kw.action == "reset" then { s0 with cmd := [] } else s0
    let s2 :=
      if kw.sqlscope == "" then s1
      else { s1 with sqlscope := some kw.sqlscope }
    let cd :=
      if kw.cmd.isEmpty then (s2.cmd, s2.dialect) else (kw.cmd, kw.dialect)
    if cd.1.isEmpty then
      ({ view with settings := s2 },
        [RunEffect.showOverlay ("Build: " ++ kw.pfx)])
    else
      let scope := s2.sqlscope
      let s3 := { s2 with sqlscope := none, cmd := cd.1, dialect := cd.2 }
      let es := empty_selection view.sel
      let sel2 :=
        if es && (scope == some "statement") then
          [select_current_statement view.content (view.sel.headD (0, 0)).1]
        else view.sel
      let es2 := es && !(scope == some "statement")
      let view2 := { view with settings := s3, sel := sel2 }
      let eff :=
        if es2 then
          [RunEffect.execFile cd.1 cd.2 view.file_name]
        else if kw.action == "explain" then
          [RunEffect.execExplain (explain_content view.content sel2 cd.2)
            cd.1 cd.2 (tempBase ++ ".sql")]
        else
          [RunEffect.execSelection (selection_content view.content sel2)
            cd.1 cd.2 (tempBase ++ ".sql")]
      (view2, eff)

/-- C7: a `kill` invocation leaves the view (settings and selection)
untouched, produces exactly one terminate effect when a process is stored
and none otherwise, and its effects do not depend on the view at all — no
settings are read or written, no output view touched, no temp file written,
no process spawned. -/
theorem run_kill_frame (kw : Kwargs) (view : ViewState) (proc : Option Unit)
    (tempBase : String) (h : kw.kill = true) :
    (run kw view proc tempBase).1 = view
    ∧ (run kw view proc tempBase).2 =
        (match proc with
         | some _ => [RunEffect.terminate]
         | none => [])
    ∧ ∀ view2 : ViewState,
        (run kw view2 proc tempBase).2 = (run kw view proc tempBase).2 := by
  refine ⟨?_, ?_, ?_⟩ <;> simp [run, h]

/-- C7 (witness): a concrete kill invocation with a stored process. -/
theorem run_kill_frame_witness :
    (run (Kwargs.mk true "" "" "" [] "")
        (ViewState.mk (VSettings.mk ["c"] "d" (some "file")) [(2, 5)] ['a'] none)
        (some ()) "t").1 =
      ViewState.mk (VSettings.mk ["c"] "d" (some "file")) [(2, 5)] ['a'] none
    ∧ (run (Kwargs.mk true "" "" "" [] "")
        (ViewState.mk (VSettings.mk ["c"] "d" (some "file")) [(2, 5)] ['a'] none)
        (some ()) "t").2 = [RunEffect.terminate] :=
  ⟨(run_kill_frame (Kwargs.mk true "" "" "" [] "")
      (ViewState.mk (VSettings.mk ["c"] "d" (some "file")) [(2, 5)] ['a'] none)
      (some ()) "t" rfl).1,
   (run_kill_frame (Kwargs.mk true "" "" "" [] "")
      (ViewState.mk (VSettings.mk ["c"] "d" (some "file")) [(2, 5)] ['a'] none)
      (some ()) "t" rfl).2.1⟩

/-- C10: an invocation that resolves a command (from the arguments or the
view settings) leaves `"cmd"` and `"dialect"` holding exactly the resolved
values used for the execution and erases `"sqlscope"`; an invocation that
instead shows the command-palette prompt leaves a passed `sqlscope` saved on
the view (and a previously saved one untouched); and on a later resolving
invocation a saved statement scope is what replaces an empty selection by
the current statement — so the scope survives exactly the one prompting
round-trip. -/
theorem run_settings_after (kw : Kwargs) (view : ViewState)
    (proc : Option Unit) (tempBase : String) (hk : kw.kill = false) :
    ((resolved_cmd kw view.settings).1 ≠ [] →
      (run kw view proc tempBase).1.settings.cmd =
          (resolved_cmd kw view.settings).1
      ∧ (run kw view proc tempBase).1.settings.dialect =
          (resolved_cmd kw view.settings).2
      ∧ (run kw view proc tempBase).1.settings.sqlscope = none)
    ∧ ((resolved_cmd kw view.settings).1 = [] →
      (run kw view proc tempBase).1.settings.sqlscope =
          (if kw.sqlscope == "" then view.settings.sqlscope
           else some kw.sqlscope)
      ∧ (run kw view proc tempBase).2 =
          [RunEffect.showOverlay ("Build: " ++ kw.pfx)])
    ∧ ((resolved_cmd kw view.settings).1 ≠ [] →
      empty_selection view.sel = true →
      (if kw.sqlscope == "" then view.settings.sqlscope
       else some kw.sqlscope) = some "statement" →
      (run kw view proc tempBase).1.sel =
        [select_current_statement view.content (view.sel.headD (0, 0)).1]) := by
  refine ⟨?_, ?_, ?_⟩
  · intro hne
    by_cases ha : kw.action == "reset" <;> by_cases hs : kw.sqlscope == "" <;>
      by_cases hc : kw.cmd.isEmpty <;>
      simp_all [run, resolved_cmd, hk, List.isEmpty_eq_false]
  · intro heq
    by_cases ha : kw.action == "reset" <;> by_cases hs : kw.sqlscope == "" <;>
      by_cases hc : kw.cmd.isEmpty <;>
      simp_all [run, resolved_cmd, hk, List.isEmpty_eq_true]
  · intro hne hes hscope
    by_cases ha : kw.action == "reset" <;> by_cases hs : kw.sqlscope == "" <;>
      by_cases hc : kw.cmd.isEmpty <;>
      simp_all [run, resolved_cmd, hk, List.isEmpty_eq_false]

/-- C10 (witness): a resolving invocation stores the used cmd/dialect and
erases the scope while replacing the empty selection by the current
statement; a prompting invocation saves the passed statement scope. -/
theorem run_settings_after_witness :
    (run (Kwargs.mk false "" "" "ora" ["c"] "")
        (ViewState.mk (VSettings.mk ["old"] "d0" (some "statement")) [(1, 1)]
          ['a', '\n'] none) none "t").1.settings.cmd = ["c"]
    ∧ (run (Kwargs.mk false "" "" "ora" ["c"] "")
        (ViewState.mk (VSettings.mk ["old"] "d0" (some "statement")) [(1, 1)]
          ['a', '\n'] none) none "t").1.settings.sqlscope = none
    ∧ (run (Kwargs.mk false "" "" "ora" ["c"] "")
        (ViewState.mk (VSettings.mk ["old"] "d0" (some "statement")) [(1, 1)]
          ['a', '\n'] none) none "t").1.sel =
        [select_current_statement ['a', '\n'] 1]
    ∧ (run (Kwargs.mk false "" "statement" "" [] "")
        (ViewState.mk (VSettings.mk [] "" none) [(0, 0)] [] none)
        none "t").1.settings.sqlscope = some "statement" :=
  ⟨((run_settings_after (Kwargs.mk false "" "" "ora" ["c"] "")
      (ViewState.mk (VSettings.mk ["old"] "d0" (some "statement")) [(1, 1)]
        ['a', '\n'] none) none "t" rfl).1 (by decide)).1,
   ((run_settings_after (Kwargs.mk false "" "" "ora" ["c"] "")
      (ViewState.mk (VSettings.mk ["old"] "d0" (some "statement")) [(1, 1)]
        ['a', '\n'] none) none "t" rfl).1 (by decide)).2.2,
   (run_settings_after (Kwargs.mk false "" "" "ora" ["c"] "")
      (ViewState.mk (VSettings.mk ["old"] "d0" (some "statement")) [(1, 1)]
        ['a', '\n'] none) none "t" rfl).2.2 (by decide) (by decide) (by decide),
   ((run_settings_after (Kwargs.mk false "" "statement" "" [] "")
      (ViewState.mk (VSettings.mk [] "" none) [(0, 0)] [] none)
      none "t" rfl).2.1 (by decide)).1⟩

end GenericSql
